import Mathlib

/-!
Verification of the two-way JSON log merge program (merging_logs.py).

The development shallowly embeds the program:
an input file is a list of lines (strings without the newline separator);
json.loads is modelled by an executable JSON text parser over characters
(numbers are modelled as integers; floating point values are out of scope);
datetime.strptime with the pattern %Y-%m-%d %H:%M:%S is modelled by an
executable parser with the same field ranges and calendar validation;
the generator pipeline is modelled by explicit state passing, a pull from a
reader being a step on the list of remaining lines, and the merge loop being
a fuel-indexed recursion (the fuel supplied at the top level provably exceeds
the number of loop iterations, which is bounded by the number of input lines).
Python exceptions are modelled as error values that abort the run.
-/

/-- A parsed instant, as produced by datetime.strptime with the fixed
pattern %Y-%m-%d %H:%M:%S (no timezone, no sub-second precision). -/
structure Datetime where
  year : Nat
  month : Nat
  day : Nat
  hour : Nat
  minute : Nat
  second : Nat
deriving DecidableEq, Repr

/-- Injective order-preserving key for Datetime values whose components are
in calendar range; datetime comparison in Python is lexicographic on the
components. -/
def dtKey (d : Datetime) : Nat :=
  ((((d.year * 13 + d.month) * 32 + d.day) * 24 + d.hour) * 60 + d.minute) * 60 + d.second

/-- Comparison of two parsed instants (datetime order, as a Bool). -/
def dtLe (a b : Datetime) : Bool := decide (dtKey a ≤ dtKey b)

theorem dtLe_refl (a : Datetime) : dtLe a a = true := by
  simp [dtLe]

theorem dtLe_total (a b : Datetime) : dtLe a b = false → dtLe b a = true := by
  intro h
  simp only [dtLe, decide_eq_false_iff_not, not_le] at h
  simp only [dtLe, decide_eq_true_eq]
  omega

def digitVal (c : Char) : Nat := c.toNat - 48

/-- Field %Y of strptime: exactly four decimal digits. -/
def takeYear : List Char → Option (Nat × List Char)
  | a :: b :: c :: d :: rest =>
    if a.isDigit && b.isDigit && c.isDigit && d.isDigit then
      some ((((digitVal a) * 10 + digitVal b) * 10 + digitVal c) * 10 + digitVal d, rest)
    else none
  | _ => none

/-- A numeric strptime field matched like the CPython alternation: a
two-digit reading satisfying ok2 is preferred, otherwise a one-digit reading
satisfying ok1 (this reproduces the regexes for %m, %d, %H, %M and %S). -/
def takeField (ok2 ok1 : Nat → Bool) : List Char → Option (Nat × List Char)
  | a :: b :: rest =>
    if a.isDigit && b.isDigit && ok2 (10 * digitVal a + digitVal b) then
      some (10 * digitVal a + digitVal b, rest)
    else if a.isDigit && ok1 (digitVal a) then
      some (digitVal a, b :: rest)
    else none
  | [a] =>
    if a.isDigit && ok1 (digitVal a) then some (digitVal a, []) else none
  | [] => none

def expectChar (c : Char) : List Char → Option (List Char)
  | d :: rest => if d == c then some rest else none
  | [] => none

def isPySpace (c : Char) : Bool :=
  c == ' ' || c == '\t' || c == '\n' || c == '\r' || c == '\x0b' || c == '\x0c'

/-- A whitespace character in the format matches one or more whitespace
characters of the data string. -/
def takeSpaces : List Char → Option (List Char)
  | c :: rest => if isPySpace c then some (rest.dropWhile isPySpace) else none
  | [] => none

def isLeapYear (y : Nat) : Bool :=
  y % 4 == 0 && (y % 100 != 0 || y % 400 == 0)

def daysInMonth (y m : Nat) : Nat :=
  if m == 2 then (if isLeapYear y then 29 else 28)
  else if m == 4 || m == 6 || m == 9 || m == 11 then 30
  else 31

/-- Model of datetime.strptime(s, DATE_TIME_FORMAT) with
DATE_TIME_FORMAT = %Y-%m-%d %H:%M:%S: none models the ValueError raised on a
format mismatch or an out-of-range calendar component; the whole data string
must be consumed. -/
def strptime (s : String) : Option Datetime :=
  match takeYear s.toList with
  | none => none
  | some (y, r1) =>
    match expectChar '-' r1 with
    | none => none
    | some r2 =>
      match takeField (fun n => 1 ≤ n && n ≤ 12) (fun n => 1 ≤ n && n ≤ 9) r2 with
      | none => none
      | some (mo, r3) =>
        match expectChar '-' r3 with
        | none => none
        | some r4 =>
          match takeField (fun n => 1 ≤ n && n ≤ 31) (fun n => 1 ≤ n && n ≤ 9) r4 with
          | none => none
          | some (d, r5) =>
            match takeSpaces r5 with
            | none => none
            | some r6 =>
              match takeField (fun n => n ≤ 23) (fun n => n ≤ 9) r6 with
              | none => none
              | some (h, r7) =>
                match expectChar ':' r7 with
                | none => none
                | some r8 =>
                  match takeField (fun n => n ≤ 59) (fun n => n ≤ 9) r8 with
                  | none => none
                  | some (mi, r9) =>
                    match expectChar ':' r9 with
                    | none => none
                    | some r10 =>
                      match takeField (fun n => n ≤ 59) (fun n => n ≤ 9) r10 with
                      | none => none
                      | some (se, r11) =>
                        if r11.isEmpty && 1 ≤ y && d ≤ daysInMonth y mo then
                          some ⟨y, mo, d, h, mi, se⟩
                        else none

/-- A decoded JSON value, as produced by json.loads. Objects keep the
insertion order of their keys, as Python dicts do. Numbers are modelled as
integers; floating point values are outside the scope of this model. -/
inductive Json where
  | null
  | bool (b : Bool)
  | num (n : Int)
  | str (s : String)
  | arr (elems : List Json)
  | obj (members : List (String × Json))

/-- Model of json.JSONDecodeError: it carries a message, the document that
was being decoded (the single line handed to json.loads) and a character
position inside that document. It carries no file identity and no line
number within any file. -/
structure JSONDecodeError where
  msg : String
  doc : String
  pos : Nat
deriving DecidableEq, Repr

/-- Building a Python dict from parsed members: assigning an existing key
keeps its position and replaces the value, a new key is appended. -/
def insertKV : List (String × Json) → String → Json → List (String × Json)
  | [], k, v => [(k, v)]
  | (k0, v0) :: rest, k, v =>
    if k0 == k then (k0, v) :: rest else (k0, v0) :: insertKV rest k v

/-- Python dict.get for the decoded objects. -/
def lookupKvs : List (String × Json) → String → Option Json
  | [], _ => none
  | (k0, v0) :: rest, k => if k0 == k then some v0 else lookupKvs rest k

/-- The whitespace characters skipped by the json decoder. -/
def isJsonWs (c : Char) : Bool :=
  c == ' ' || c == '\t' || c == '\n' || c == '\r'

def skipWs (cs : List Char) : List Char := cs.dropWhile isJsonWs

def hexVal (c : Char) : Option Nat :=
  if c.isDigit then some (c.toNat - 48)
  else if 'a' ≤ c && c ≤ 'f' then some (c.toNat - 87)
  else if 'A' ≤ c && c ≤ 'F' then some (c.toNat - 70)
  else none

/-- Body of a JSON string literal, after the opening quote. Errors carry a
message and the number of characters remaining at the error point. -/
def parseStringBody : List Char → Except (String × Nat) (List Char × List Char)
  | [] => .error ("Unterminated string starting at", 0)
  | '\x22' :: rest => .ok ([], rest)
  | '\\' :: 'u' :: a :: b :: c :: d :: rest =>
    match hexVal a, hexVal b, hexVal c, hexVal d with
    | some ha, some hb, some hc, some hd =>
      let n := ((ha * 16 + hb) * 16 + hc) * 16 + hd
      let ch := if h : n.isValidChar then Char.ofNatAux n h else Char.ofNat n
      (match parseStringBody rest with
       | .error e => .error e
       | .ok (l, r) => .ok (ch :: l, r))
    | _, _, _, _ => .error ("Invalid unicode escape", rest.length + 4)
  | '\\' :: e :: rest =>
    let esc : Option Char :=
      if e == '\x22' then some '\x22'
      else if e == '\\' then some '\\'
      else if e == '/' then some '/'
      else if e == 'b' then some '\x08'
      else if e == 'f' then some '\x0c'
      else if e == 'n' then some '\n'
      else if e == 'r' then some '\r'
      else if e == 't' then some '\t'
      else none
    (match esc with
     | none => .error ("Invalid escape", rest.length + 1)
     | some ch =>
       match parseStringBody rest with
       | .error er => .error er
       | .ok (l, r) => .ok (ch :: l, r))
  | c :: rest =>
    if c.toNat < 32 then .error ("Invalid control character", rest.length + 1)
    else
      match parseStringBody rest with
      | .error er => .error er
      | .ok (l, r) => .ok (c :: l, r)

def digitsToNat (ds : List Char) : Nat :=
  ds.foldl (fun acc c => acc * 10 + digitVal c) 0

/-- An integer literal after an optional minus sign, following the json
number grammar for the integer part (no leading zeros). A fraction or an
exponent would be a float, which this model does not cover and rejects. -/
def parseIntFrom (neg : Bool) (cs : List Char) : Except (String × Nat) (Json × List Char) :=
  match cs with
  | '0' :: rest =>
    (match rest with
     | '.' :: r => .error ("Float literals are not modelled", r.length + 1)
     | 'e' :: r => .error ("Float literals are not modelled", r.length + 1)
     | 'E' :: r => .error ("Float literals are not modelled", r.length + 1)
     | _ => .ok (Json.num 0, rest))
  | c :: _ =>
    if c.isDigit then
      let ds := cs.takeWhile Char.isDigit
      let rest := cs.dropWhile Char.isDigit
      let n : Int := Int.ofNat (digitsToNat ds)
      (match rest with
       | '.' :: r => .error ("Float literals are not modelled", r.length + 1)
       | 'e' :: r => .error ("Float literals are not modelled", r.length + 1)
       | 'E' :: r => .error ("Float literals are not modelled", r.length + 1)
       | _ => .ok (Json.num (if neg then -n else n), rest))
    else .error ("Expecting value", cs.length + (if neg then 1 else 0))
  | [] => .error ("Expecting value", if neg then 1 else 0)

mutual

/-- One JSON value at the current position (whitespace already skipped by
the caller), as in json.decoder. The fuel only bounds the recursion depth;
the top level supplies more fuel than any input can consume. -/
def parseValue : Nat → List Char → Except (String × Nat) (Json × List Char)
  | 0, cs => .error ("Expecting value", cs.length)
  | fuel + 1, cs =>
    match cs with
    | [] => .error ("Expecting value", 0)
    | '\x7b' :: rest =>
      (match skipWs rest with
       | '\x7d' :: rest2 => .ok (Json.obj [], rest2)
       | rest2 => parseMembers fuel [] rest2)
    | '[' :: rest =>
      (match skipWs rest with
       | ']' :: rest2 => .ok (Json.arr [], rest2)
       | rest2 => parseElements fuel [] rest2)
    | '\x22' :: rest =>
      (match parseStringBody rest with
       | .error e => .error e
       | .ok (l, rest2) => .ok (Json.str (String.mk l), rest2))
    | 'n' :: 'u' :: 'l' :: 'l' :: rest => .ok (Json.null, rest)
    | 't' :: 'r' :: 'u' :: 'e' :: rest => .ok (Json.bool true, rest)
    | 'f' :: 'a' :: 'l' :: 's' :: 'e' :: rest => .ok (Json.bool false, rest)
    | '-' :: rest => parseIntFrom true rest
    | c :: _ =>
      if c.isDigit then parseIntFrom false cs
      else .error ("Expecting value", cs.length)

/-- The members of an object, at a position where a key is expected. -/
def parseMembers : Nat → List (String × Json) → List Char →
    Except (String × Nat) (Json × List Char)
  | 0, _, cs => .error ("Expecting property name enclosed in double quotes", cs.length)
  | fuel + 1, acc, cs =>
    match skipWs cs with
    | '\x22' :: rest =>
      (match parseStringBody rest with
       | .error e => .error e
       | .ok (kcs, rest2) =>
         match skipWs rest2 with
         | ':' :: rest3 =>
           (match parseValue fuel (skipWs rest3) with
            | .error e => .error e
            | .ok (v, rest4) =>
              let acc2 := insertKV acc (String.mk kcs) v
              (match skipWs rest4 with
               | ',' :: rest5 => parseMembers fuel acc2 rest5
               | '\x7d' :: rest5 => .ok (Json.obj acc2, rest5)
               | rest5 => .error ("Expecting comma delimiter", rest5.length)))
         | rest3 => .error ("Expecting colon delimiter", rest3.length))
    | rest => .error ("Expecting property name enclosed in double quotes", rest.length)

/-- The elements of an array, at a position where a value is expected. -/
def parseElements : Nat → List Json → List Char →
    Except (String × Nat) (Json × List Char)
  | 0, _, cs => .error ("Expecting value", cs.length)
  | fuel + 1, acc, cs =>
    match parseValue fuel (skipWs cs) with
    | .error e => .error e
    | .ok (v, rest) =>
      (match skipWs rest with
       | ',' :: rest2 => parseElements fuel (acc ++ [v]) rest2
       | ']' :: rest2 => .ok (Json.arr (acc ++ [v]), rest2)
       | rest2 => .error ("Expecting comma delimiter", rest2.length))

end

/-- Model of json.loads on one line: skip leading whitespace, decode one
value, skip trailing whitespace, and require the whole line to be consumed.
The error position is a character offset into the line. -/
def json_loads (s : String) : Except JSONDecodeError Json :=
  let cs := s.toList
  match parseValue (cs.length + 1) (skipWs cs) with
  | .error (m, rem) => .error ⟨m, s, cs.length - rem⟩
  | .ok (v, rest) =>
    match skipWs rest with
    | [] => .ok v
    | rest2 => .error ⟨"Extra data", s, cs.length - rest2.length⟩

/-- Escaping of one character in a dumped string, as in json.dumps with the
default ensure_ascii: printable ASCII except the quote and the backslash is
written literally, short escapes for the usual control characters, a
four-hex-digit escape otherwise (a supplementary character becomes a
surrogate pair). -/
def hexDigit (n : Nat) : Char :=
  if n < 10 then Char.ofNat (48 + n) else Char.ofNat (87 + n)

def uEscape (n : Nat) : String :=
  String.mk ['\\', 'u', hexDigit (n / 4096 % 16), hexDigit (n / 256 % 16),
             hexDigit (n / 16 % 16), hexDigit (n % 16)]

def escapeChar (c : Char) : String :=
  if c == '\x22' then "\\\x22"
  else if c == '\\' then "\\\\"
  else if c == '\x08' then "\\b"
  else if c == '\x0c' then "\\f"
  else if c == '\n' then "\\n"
  else if c == '\r' then "\\r"
  else if c == '\t' then "\\t"
  else if 32 ≤ c.toNat && c.toNat ≤ 126 then String.mk [c]
  else if c.toNat ≤ 65535 then uEscape c.toNat
  else
    let v := c.toNat - 65536
    uEscape (55296 + v / 1024) ++ uEscape (56320 + v % 1024)

def dumpString (s : String) : String :=
  "\x22" ++ String.join (s.toList.map escapeChar) ++ "\x22"

mutual

/-- Model of json.dumps with the default separators: members are joined by
a comma and a space, a key is separated from its value by a colon and a
space. -/
def json_dumps : Json → String
  | Json.null => "null"
  | Json.bool true => "true"
  | Json.bool false => "false"
  | Json.num n => toString n
  | Json.str s => dumpString s
  | Json.arr es => "[" ++ dumpsElems es ++ "]"
  | Json.obj ms => "\x7b" ++ dumpsMembers ms ++ "\x7d"

def dumpsElems : List Json → String
  | [] => ""
  | [e] => json_dumps e
  | e :: rest => json_dumps e ++ ", " ++ dumpsElems rest

def dumpsMembers : List (String × Json) → String
  | [] => ""
  | [(k, v)] => dumpString k ++ ": " ++ json_dumps v
  | (k, v) :: rest => dumpString k ++ ": " ++ json_dumps v ++ ", " ++ dumpsMembers rest

end

/-- Python truthiness of a decoded JSON value: None, False, zero, the empty
string, the empty list and the empty dict are falsy. -/
def truthy : Json → Bool
  | Json.null => false
  | Json.bool b => b
  | Json.num n => !(n == 0)
  | Json.str s => !(s == "")
  | Json.arr es => !es.isEmpty
  | Json.obj ms => !ms.isEmpty

def slotTruthy : Option Json → Bool
  | none => false
  | some j => truthy j

def slotVal : Option Json → Json
  | none => Json.null
  | some j => j

/-- The errors that can abort a run of the merge. The two strptime failure
modes are distinct Python exception classes: TypeError when the first
argument is not a string (in particular None, returned by dict.get for an
absent key), ValueError when the string does not match the format. dict.get
on a non-dict record raises AttributeError. -/
inductive RunError where
  | decode (e : JSONDecodeError)
  | attributeError
  | typeError
  | valueError
deriving DecidableEq, Repr

/-- Model of get_log_time: datetime.strptime(log_instance.get(timestamp),
DATE_TIME_FORMAT). A missing key makes dict.get return None and strptime
raise TypeError; a non-string value also makes strptime raise TypeError; a
string value that does not match the format makes strptime raise
ValueError. -/
def get_log_time (log_instance : Json) : Except RunError Datetime :=
  match log_instance with
  | Json.obj ms =>
    (match lookupKvs ms "timestamp" with
     | none => .error RunError.typeError
     | some (Json.str s) =>
       (match strptime s with
        | some t => .ok t
        | none => .error RunError.valueError)
     | some _ => .error RunError.typeError)
  | _ => .error RunError.attributeError

/-- Model of next_log over the remaining lines of one reader: the next
decoded record and the rest, none at end of file (StopIteration is turned
into None); a json.loads failure propagates. -/
def next_log (lines : List String) : Except JSONDecodeError (Option Json × List String) :=
  match lines with
  | [] => .ok (none, [])
  | l :: ls =>
    (match json_loads l with
     | .ok v => .ok (some v, ls)
     | .error e => .error e)

/-- The loop of sorted_log_generator, with the two peek slots and the two
readers as explicit state. The result is the list of records the generator
yields, paired with the error that aborts it, if any. A record is yielded
before its slot is refilled, so a refill failure leaves the record already
emitted. The fuel argument only bounds the iteration count; every iteration
consumes one pending item, so the caller can always supply enough fuel. -/
def sorted_log_loop : Nat → Option Json → List String → Option Json → List String →
    List Json × Option RunError
  | 0, _, _, _, _ => ([], none)
  | fuel + 1, file_log1, gen1, file_log2, gen2 =>
    if slotTruthy file_log1 || slotTruthy file_log2 then
      if slotTruthy file_log1 && slotTruthy file_log2 then
        match get_log_time (slotVal file_log1) with
        | .error e => ([], some e)
        | .ok t1 =>
          (match get_log_time (slotVal file_log2) with
           | .error e => ([], some e)
           | .ok t2 =>
             if dtLe t1 t2 then
               match next_log gen1 with
               | .error e => ([slotVal file_log1], some (RunError.decode e))
               | .ok (fl1, g1) =>
                 let r := sorted_log_loop fuel fl1 g1 file_log2 gen2
                 (slotVal file_log1 :: r.1, r.2)
             else
               match next_log gen2 with
               | .error e => ([slotVal file_log2], some (RunError.decode e))
               | .ok (fl2, g2) =>
                 let r := sorted_log_loop fuel file_log1 gen1 fl2 g2
                 (slotVal file_log2 :: r.1, r.2))
      else if !slotTruthy file_log1 then
        match next_log gen2 with
        | .error e => ([slotVal file_log2], some (RunError.decode e))
        | .ok (fl2, g2) =>
          let r := sorted_log_loop fuel file_log1 gen1 fl2 g2
          (slotVal file_log2 :: r.1, r.2)
      else
        match next_log gen1 with
        | .error e => ([slotVal file_log1], some (RunError.decode e))
        | .ok (fl1, g1) =>
          let r := sorted_log_loop fuel fl1 g1 file_log2 gen2
          (slotVal file_log1 :: r.1, r.2)
    else ([], none)

/-- Model of sorted_log_generator on the contents of the two input files:
prime the first slot from the first file, then the second slot from the
second file, then run the merge loop. The fuel bound exceeds the number of
pending records, which never exceeds the number of input lines. -/
def sorted_log_generator (file1 file2 : List String) : List Json × Option RunError :=
  match next_log file1 with
  | .error e => ([], some (RunError.decode e))
  | .ok (fl1, g1) =>
    (match next_log file2 with
     | .error e => ([], some (RunError.decode e))
     | .ok (fl2, g2) =>
       sorted_log_loop (file1.length + file2.length + 1) fl1 g1 fl2 g2)

/-- The errors main can surface. Both the pre-existing output directory and
the missing input files raise FileExistsError in the source; the two raise
sites carry distinct messages and are modelled as distinct constructors. -/
inductive MainError where
  | target_exists
  | input_not_found
  | run (e : RunError)
deriving DecidableEq, Repr

/-- Observable outcome of create_output_file (and of main): whether the
output directory and file were created, the encoded lines written to the
output file before completion or abort, and the error, if any. -/
structure RunResult where
  created : Bool
  written : List String
  err : Option MainError
deriving DecidableEq, Repr

/-- Model of create_output_file: if the output directory exists, fail
before creating anything and before pulling a single record from the merge;
otherwise create the directory and the file and write one encoded line per
yielded record until the stream ends or its error aborts the run, leaving
the already written lines in place. -/
def create_output_file (output_dir_exists : Bool) (merged_log : List Json × Option RunError) :
    RunResult :=
  if output_dir_exists then ⟨false, [], some MainError.target_exists⟩
  else ⟨true, merged_log.1.map json_dumps, merged_log.2.map MainError.run⟩

/-- Model of main (named main_run because Lean reserves the name main for
the executable entry point): the input files are checked for existence
first; only when both exist is the merge built and the output written. -/
def main_run (log1_is_file log2_is_file output_dir_exists : Bool) (file1 file2 : List String) :
    RunResult :=
  if log1_is_file && log2_is_file then
    create_output_file output_dir_exists (sorted_log_generator file1 file2)
  else ⟨false, [], some MainError.input_not_found⟩

/-- Decode every line of a file, stopping at the first json.loads failure.
This is what a reader yields over its lifetime when fully drained. -/
def decodeFile : List String → Except JSONDecodeError (List Json)
  | [] => .ok []
  | l :: ls =>
    match json_loads l with
    | .error e => .error e
    | .ok v =>
      (match decodeFile ls with
       | .error e => .error e
       | .ok vs => .ok (v :: vs))

/-- A well-formed record: a JSON object whose timestamp member is a string
accepted by strptime. -/
def validRecord (j : Json) : Bool :=
  match j with
  | Json.obj ms =>
    (match lookupKvs ms "timestamp" with
     | some (Json.str s) => (strptime s).isSome
     | _ => false)
  | _ => false

/-- The instant of a record, defaulting when extraction fails; it is only
ever used on records on which get_log_time succeeds. -/
def timeOf (j : Json) : Datetime :=
  match get_log_time j with
  | .ok t => t
  | .error _ => ⟨1, 1, 1, 0, 0, 0⟩

/-- Comparison of two records by their instants. -/
def timeLeB (a b : Json) : Bool := dtLe (timeOf a) (timeOf b)

/-- Adjacent-pairs ordering of a record sequence: every record is at most
its successor, by parsed instant. -/
def sortedByTime : List Json → Bool
  | [] => true
  | [_] => true
  | a :: b :: rest => timeLeB a b && sortedByTime (b :: rest)

/-- The reference two-pointer merge on fully decoded record lists, emitting
the left record on ties. -/
def merge_records : List Json → List Json → List Json
  | [], ys => ys
  | x :: xs, [] => x :: xs
  | x :: xs, y :: ys =>
    if timeLeB x y then x :: merge_records xs (y :: ys)
    else y :: merge_records (x :: xs) ys

/-- The pending records of one side of the loop: the peeked slot followed by
the records the remaining lines decode to. A none slot stands for an
exhausted reader, whose remaining lines are never read again. -/
def SlotInv (fl : Option Json) (g : List String) (vs : List Json) : Prop :=
  (fl = none ∧ vs = []) ∨
  ∃ v vs2, fl = some v ∧ vs = v :: vs2 ∧ decodeFile g = Except.ok vs2

theorem validRecord_truthy (j : Json) (h : validRecord j = true) : truthy j = true := by
  cases j with
  | obj ms =>
    cases ms with
    | nil => simp [validRecord, lookupKvs] at h
    | cons kv rest => simp [truthy]
  | null => simp [validRecord] at h
  | bool b => simp [validRecord] at h
  | num n => simp [validRecord] at h
  | str s => simp [validRecord] at h
  | arr es => simp [validRecord] at h

theorem get_log_time_of_valid (j : Json) (h : validRecord j = true) :
    get_log_time j = Except.ok (timeOf j) := by
  cases j with
  | obj ms =>
    cases hl : lookupKvs ms "timestamp" with
    | none => simp [validRecord, hl] at h
    | some v =>
      cases v with
      | str s =>
        cases hs : strptime s with
        | none => simp [validRecord, hl, hs] at h
        | some t => simp [get_log_time, timeOf, hl, hs]
      | null => simp [validRecord, hl] at h
      | bool b => simp [validRecord, hl] at h
      | num n => simp [validRecord, hl] at h
      | arr es => simp [validRecord, hl] at h
      | obj ms2 => simp [validRecord, hl] at h
  | null => simp [validRecord] at h
  | bool b => simp [validRecord] at h
  | num n => simp [validRecord] at h
  | str s => simp [validRecord] at h
  | arr es => simp [validRecord] at h

theorem next_log_of_decode (g : List String) (vs : List Json)
    (h : decodeFile g = Except.ok vs) :
    ∃ fl g2, next_log g = Except.ok (fl, g2) ∧ SlotInv fl g2 vs := by
  cases g with
  | nil =>
    simp only [decodeFile] at h
    refine ⟨none, [], rfl, Or.inl ⟨rfl, ?_⟩⟩
    exact (Except.ok.injEq _ _).mp h.symm
  | cons l ls =>
    simp only [decodeFile] at h
    cases hj : json_loads l with
    | error e => rw [hj] at h; exact absurd h (by simp)
    | ok v =>
      rw [hj] at h
      cases hd : decodeFile ls with
      | error e => rw [hd] at h; exact absurd h (by simp)
      | ok vs2 =>
        rw [hd] at h
        have hv : vs = v :: vs2 := by
          have := (Except.ok.injEq _ _).mp h
          exact this.symm
        exact ⟨some v, ls, by simp [next_log, hj], Or.inr ⟨v, vs2, rfl, hv, hd⟩⟩

theorem decodeFile_length (g : List String) (vs : List Json)
    (h : decodeFile g = Except.ok vs) : vs.length = g.length := by
  induction g generalizing vs with
  | nil => simp only [decodeFile] at h; cases h; rfl
  | cons l ls ih =>
    simp only [decodeFile] at h
    cases hj : json_loads l with
    | error e => rw [hj] at h; exact absurd h (by simp)
    | ok v =>
      rw [hj] at h
      cases hd : decodeFile ls with
      | error e => rw [hd] at h; exact absurd h (by simp)
      | ok vs2 =>
        rw [hd] at h
        cases h
        simp [ih vs2 hd]

theorem merge_records_nil_left (ys : List Json) : merge_records [] ys = ys := by
  cases ys <;> simp [merge_records]

theorem merge_records_nil_right (xs : List Json) : merge_records xs [] = xs := by
  cases xs <;> simp [merge_records]

theorem merge_records_perm (xs ys : List Json) :
    List.Perm (merge_records xs ys) (xs ++ ys) := by
  match xs, ys with
  | [], ys => simp [merge_records_nil_left]
  | x :: xs, [] => simp [merge_records_nil_right]
  | x :: xs, y :: ys =>
    rw [merge_records]
    by_cases h : timeLeB x y = true
    · rw [if_pos h]
      exact (merge_records_perm xs (y :: ys)).cons x
    · rw [if_neg h]
      refine ((merge_records_perm (x :: xs) ys).cons y).trans ?_
      exact (List.perm_middle).symm
termination_by xs.length + ys.length

theorem merge_records_length (xs ys : List Json) :
    (merge_records xs ys).length = xs.length + ys.length := by
  have := (merge_records_perm xs ys).length_eq
  simpa using this

theorem merge_records_head (xs ys : List Json) :
    (merge_records xs ys).head? = xs.head? ∨ (merge_records xs ys).head? = ys.head? := by
  match xs, ys with
  | [], ys => right; rw [merge_records_nil_left]
  | x :: xs, [] => left; rw [merge_records_nil_right]
  | x :: xs, y :: ys =>
    rw [merge_records]
    by_cases h : timeLeB x y = true
    · left; rw [if_pos h]; rfl
    · right; rw [if_neg h]; rfl

theorem sortedByTime_cons (a : Json) (l : List Json) :
    sortedByTime (a :: l) = true ↔
      ((∀ b, l.head? = some b → timeLeB a b = true) ∧ sortedByTime l = true) := by
  cases l with
  | nil => simp [sortedByTime]
  | cons b rest =>
    simp only [sortedByTime, Bool.and_eq_true, List.head?_cons]
    constructor
    · rintro ⟨h1, h2⟩
      exact ⟨fun c hc => by cases hc; exact h1, h2⟩
    · rintro ⟨h1, h2⟩
      exact ⟨h1 b rfl, h2⟩

theorem merge_records_sorted (xs ys : List Json)
    (hx : sortedByTime xs = true) (hy : sortedByTime ys = true) :
    sortedByTime (merge_records xs ys) = true := by
  match xs, ys with
  | [], ys => rw [merge_records_nil_left]; exact hy
  | x :: xs, [] => rw [merge_records_nil_right]; exact hx
  | x :: xs, y :: ys =>
    rw [merge_records]
    rw [sortedByTime_cons] at hx hy
    by_cases h : timeLeB x y = true
    · rw [if_pos h]
      rw [sortedByTime_cons]
      refine ⟨?_, merge_records_sorted xs (y :: ys) hx.2 (by rw [sortedByTime_cons]; exact hy)⟩
      intro b hb
      rcases merge_records_head xs (y :: ys) with hh | hh
      · exact hx.1 b (hh ▸ hb)
      · rw [hh] at hb
        cases hb
        exact h
    · rw [if_neg h]
      have h2 : dtLe (timeOf x) (timeOf y) = false := by
        simpa [timeLeB] using h
      have hyx : timeLeB y x = true := dtLe_total _ _ h2
      rw [sortedByTime_cons]
      refine ⟨?_, merge_records_sorted (x :: xs) ys (by rw [sortedByTime_cons]; exact hx) hy.2⟩
      intro b hb
      rcases merge_records_head (x :: xs) ys with hh | hh
      · rw [hh] at hb
        cases hb
        exact hyx
      · exact hy.1 b (hh ▸ hb)
termination_by xs.length + ys.length

theorem loop_eq_merge : ∀ (fuel : Nat) (vs1 vs2 : List Json) (fl1 : Option Json)
    (g1 : List String) (fl2 : Option Json) (g2 : List String),
    SlotInv fl1 g1 vs1 → SlotInv fl2 g2 vs2 →
    vs1.all validRecord = true → vs2.all validRecord = true →
    vs1.length + vs2.length < fuel →
    sorted_log_loop fuel fl1 g1 fl2 g2 = (merge_records vs1 vs2, none) := by
  intro fuel
  induction fuel with
  | zero =>
    intro vs1 vs2 _ _ _ _ _ _ _ _ hf
    exact absurd hf (by omega)
  | succ n ihn =>
    intro vs1 vs2 fl1 g1 fl2 g2 h1 h2 hv1 hv2 hf
    rcases h1 with ⟨rfl, rfl⟩ | ⟨v1, vs1x, rfl, rfl, hd1⟩ <;>
      rcases h2 with ⟨rfl, rfl⟩ | ⟨v2, vs2x, rfl, rfl, hd2⟩
    · simp [sorted_log_loop, slotTruthy, merge_records_nil_left]
    · have hval2 : validRecord v2 = true ∧ vs2x.all validRecord = true := by
        simpa using hv2
      have ht2 : truthy v2 = true := validRecord_truthy v2 hval2.1
      obtain ⟨fl2x, g2x, hnext, hinv⟩ := next_log_of_decode g2 vs2x hd2
      have ih := ihn [] vs2x none g1 fl2x g2x (Or.inl ⟨rfl, rfl⟩) hinv (by simp) hval2.2
        (by simp at hf ⊢; omega)
      simp [sorted_log_loop, slotTruthy, ht2, hnext, ih, merge_records_nil_left, slotVal]
    · have hval1 : validRecord v1 = true ∧ vs1x.all validRecord = true := by
        simpa using hv1
      have ht1 : truthy v1 = true := validRecord_truthy v1 hval1.1
      obtain ⟨fl1x, g1x, hnext, hinv⟩ := next_log_of_decode g1 vs1x hd1
      have ih := ihn vs1x [] fl1x g1x none g2 hinv (Or.inl ⟨rfl, rfl⟩) hval1.2 (by simp)
        (by simp at hf ⊢; omega)
      simp [sorted_log_loop, slotTruthy, ht1, hnext, ih, merge_records_nil_right, slotVal]
    · have hval1 : validRecord v1 = true ∧ vs1x.all validRecord = true := by
        simpa using hv1
      have hval2 : validRecord v2 = true ∧ vs2x.all validRecord = true := by
        simpa using hv2
      have ht1 : truthy v1 = true := validRecord_truthy v1 hval1.1
      have ht2 : truthy v2 = true := validRecord_truthy v2 hval2.1
      have hg1 : get_log_time v1 = Except.ok (timeOf v1) := get_log_time_of_valid v1 hval1.1
      have hg2 : get_log_time v2 = Except.ok (timeOf v2) := get_log_time_of_valid v2 hval2.1
      by_cases hcmp : timeLeB v1 v2 = true
      · have hc : dtLe (timeOf v1) (timeOf v2) = true := hcmp
        obtain ⟨fl1x, g1x, hnext, hinv⟩ := next_log_of_decode g1 vs1x hd1
        have ih := ihn vs1x (v2 :: vs2x) fl1x g1x (some v2) g2 hinv
          (Or.inr ⟨v2, vs2x, rfl, rfl, hd2⟩) hval1.2 hv2 (by simp at hf ⊢; omega)
        simp [sorted_log_loop, slotTruthy, ht1, ht2, slotVal, hg1, hg2, hc, hnext, ih,
          merge_records, hcmp]
      · have hc : dtLe (timeOf v1) (timeOf v2) = false := by
          simpa [timeLeB] using hcmp
        obtain ⟨fl2x, g2x, hnext, hinv⟩ := next_log_of_decode g2 vs2x hd2
        have ih := ihn (v1 :: vs1x) vs2x (some v1) g1 fl2x g2x
          (Or.inr ⟨v1, vs1x, rfl, rfl, hd1⟩) hinv hv1 hval2.2 (by simp at hf ⊢; omega)
        simp [sorted_log_loop, slotTruthy, ht1, ht2, slotVal, hg1, hg2, hc, hnext, ih,
          merge_records, hcmp]

theorem generator_eq_merge (file1 file2 : List String) (rs1 rs2 : List Json)
    (h1 : decodeFile file1 = Except.ok rs1) (h2 : decodeFile file2 = Except.ok rs2)
    (hv1 : rs1.all validRecord = true) (hv2 : rs2.all validRecord = true) :
    sorted_log_generator file1 file2 = (merge_records rs1 rs2, none) := by
  obtain ⟨fl1, g1, hn1, hi1⟩ := next_log_of_decode file1 rs1 h1
  obtain ⟨fl2, g2, hn2, hi2⟩ := next_log_of_decode file2 rs2 h2
  have hlen1 := decodeFile_length file1 rs1 h1
  have hlen2 := decodeFile_length file2 rs2 h2
  have := loop_eq_merge (file1.length + file2.length + 1) rs1 rs2 fl1 g1 fl2 g2 hi1 hi2 hv1 hv2
    (by omega)
  simp [sorted_log_generator, hn1, hn2, this]

theorem slotTruthy_none : slotTruthy none = false := rfl

theorem loop_left_falsy : ∀ (fuel : Nat) (s : Option Json) (g1 g1' : List String)
    (fl2 : Option Json) (g2 : List String), slotTruthy s = false →
    sorted_log_loop fuel s g1 fl2 g2 = sorted_log_loop fuel none g1' fl2 g2 := by
  intro fuel
  induction fuel with
  | zero => intros; simp [sorted_log_loop]
  | succ n ih =>
    intro s g1 g1' fl2 g2 hs
    by_cases h2 : slotTruthy fl2 = true
    · cases hnl : next_log g2 with
      | error e => simp [sorted_log_loop, slotTruthy_none, hs, h2, hnl]
      | ok p =>
        obtain ⟨fl2x, g2x⟩ := p
        simp [sorted_log_loop, slotTruthy_none, hs, h2, hnl, ih s g1 g1' fl2x g2x hs]
    · have h2f : slotTruthy fl2 = false := by simpa using h2
      simp [sorted_log_loop, slotTruthy_none, hs, h2f]

theorem loop_right_falsy : ∀ (fuel : Nat) (fl1 : Option Json) (g1 : List String)
    (s : Option Json) (g2 g2' : List String), slotTruthy s = false →
    sorted_log_loop fuel fl1 g1 s g2 = sorted_log_loop fuel fl1 g1 none g2' := by
  intro fuel
  induction fuel with
  | zero => intros; simp [sorted_log_loop]
  | succ n ih =>
    intro fl1 g1 s g2 g2' hs
    by_cases h1 : slotTruthy fl1 = true
    · cases hnl : next_log g1 with
      | error e => simp [sorted_log_loop, slotTruthy_none, hs, h1, hnl]
      | ok p =>
        obtain ⟨fl1x, g1x⟩ := p
        simp [sorted_log_loop, slotTruthy_none, hs, h1, hnl, ih fl1x g1x s g2 g2' hs]
    · have h1f : slotTruthy fl1 = false := by simpa using h1
      simp [sorted_log_loop, slotTruthy_none, hs, h1f]

def slotCount : Option Json → Nat
  | none => 0
  | some _ => 1

/-- The number of records still pending on both sides; every loop iteration
strictly decreases it, so it bounds the number of iterations. -/
def loopMeasure (fl1 : Option Json) (g1 : List String) (fl2 : Option Json)
    (g2 : List String) : Nat :=
  slotCount fl1 + slotCount fl2 + g1.length + g2.length

theorem next_log_measure (g : List String) (fl : Option Json) (g2 : List String)
    (h : next_log g = Except.ok (fl, g2)) : slotCount fl + g2.length ≤ g.length := by
  cases g with
  | nil =>
    simp only [next_log] at h
    cases h
    simp [slotCount]
  | cons l ls =>
    simp only [next_log] at h
    cases hj : json_loads l with
    | error e => rw [hj] at h; exact absurd h (by simp)
    | ok v =>
      rw [hj] at h
      cases h
      simp only [slotCount, List.length_cons]
      omega

theorem slotTruthy_some (fl : Option Json) (h : slotTruthy fl = true) :
    ∃ j, fl = some j := by
  cases fl with
  | none => simp [slotTruthy_none] at h
  | some j => exact ⟨j, rfl⟩

theorem loop_fuel_irrel : ∀ (fuel fuel' : Nat) (fl1 : Option Json) (g1 : List String)
    (fl2 : Option Json) (g2 : List String),
    loopMeasure fl1 g1 fl2 g2 < fuel → loopMeasure fl1 g1 fl2 g2 < fuel' →
    sorted_log_loop fuel fl1 g1 fl2 g2 = sorted_log_loop fuel' fl1 g1 fl2 g2 := by
  intro fuel
  induction fuel with
  | zero =>
    intro fuel' _ _ _ _ h _
    exact absurd h (by omega)
  | succ n ih =>
    intro fuel' fl1 g1 fl2 g2 hf hf'
    cases fuel' with
    | zero => exact absurd hf' (by omega)
    | succ m =>
      by_cases t1 : slotTruthy fl1 = true <;> by_cases t2 : slotTruthy fl2 = true
      · obtain ⟨j1, rfl⟩ := slotTruthy_some fl1 t1
        cases hg1 : get_log_time (slotVal (some j1)) with
        | error e => simp [sorted_log_loop, t1, t2, hg1]
        | ok tv1 =>
          cases hg2 : get_log_time (slotVal fl2) with
          | error e => simp [sorted_log_loop, t1, t2, hg1, hg2]
          | ok tv2 =>
            by_cases hcmp : dtLe tv1 tv2 = true
            · cases hnl : next_log g1 with
              | error e => simp [sorted_log_loop, t1, t2, hg1, hg2, hcmp, hnl]
              | ok p =>
                obtain ⟨fl1x, g1x⟩ := p
                have hm := next_log_measure g1 fl1x g1x hnl
                have hlt : loopMeasure fl1x g1x fl2 g2 < n ∧ loopMeasure fl1x g1x fl2 g2 < m := by
                  have hc : slotCount (some j1) = 1 := rfl
                  simp only [loopMeasure] at hf hf' ⊢
                  omega
                simp [sorted_log_loop, t1, t2, hg1, hg2, hcmp, hnl,
                  ih m fl1x g1x fl2 g2 hlt.1 hlt.2]
            · obtain ⟨j2, rfl⟩ := slotTruthy_some fl2 t2
              have hcmpf : dtLe tv1 tv2 = false := by simpa using hcmp
              cases hnl : next_log g2 with
              | error e => simp [sorted_log_loop, t1, t2, hg1, hg2, hcmpf, hnl]
              | ok p =>
                obtain ⟨fl2x, g2x⟩ := p
                have hm := next_log_measure g2 fl2x g2x hnl
                have hlt : loopMeasure (some j1) g1 fl2x g2x < n ∧
                    loopMeasure (some j1) g1 fl2x g2x < m := by
                  have hc : slotCount (some j2) = 1 := rfl
                  simp only [loopMeasure] at hf hf' ⊢
                  omega
                simp [sorted_log_loop, t1, t2, hg1, hg2, hcmpf, hnl,
                  ih m (some j1) g1 fl2x g2x hlt.1 hlt.2]
      · obtain ⟨j1, rfl⟩ := slotTruthy_some fl1 t1
        have t2f : slotTruthy fl2 = false := by simpa using t2
        cases hnl : next_log g1 with
        | error e => simp [sorted_log_loop, t1, t2f, hnl]
        | ok p =>
          obtain ⟨fl1x, g1x⟩ := p
          have hm := next_log_measure g1 fl1x g1x hnl
          have hlt : loopMeasure fl1x g1x fl2 g2 < n ∧ loopMeasure fl1x g1x fl2 g2 < m := by
            have hc : slotCount (some j1) = 1 := rfl
            simp only [loopMeasure] at hf hf' ⊢
            omega
          simp [sorted_log_loop, t1, t2f, hnl, ih m fl1x g1x fl2 g2 hlt.1 hlt.2]
      · obtain ⟨j2, rfl⟩ := slotTruthy_some fl2 t2
        have t1f : slotTruthy fl1 = false := by simpa using t1
        cases hnl : next_log g2 with
        | error e => simp [sorted_log_loop, t1f, t2, hnl]
        | ok p =>
          obtain ⟨fl2x, g2x⟩ := p
          have hm := next_log_measure g2 fl2x g2x hnl
          have hlt : loopMeasure fl1 g1 fl2x g2x < n ∧ loopMeasure fl1 g1 fl2x g2x < m := by
            have hc : slotCount (some j2) = 1 := rfl
            simp only [loopMeasure] at hf hf' ⊢
            omega
          simp [sorted_log_loop, t1f, t2, hnl, ih m fl1 g1 fl2x g2x hlt.1 hlt.2]
      · have t1f : slotTruthy fl1 = false := by simpa using t1
        have t2f : slotTruthy fl2 = false := by simpa using t2
        simp [sorted_log_loop, t1f, t2f]

/-- A reader state whose lines decode to the records vs and then fail with
the decode error e. -/
def BadTail (g : List String) (vs : List Json) (e : JSONDecodeError) : Prop :=
  ∃ good bad rest, g = good ++ bad :: rest ∧ decodeFile good = Except.ok vs ∧
    json_loads bad = Except.error e

theorem loop_onesided_bad : ∀ (fuel : Nat) (v : Json) (g1 : List String) (vs : List Json)
    (e : JSONDecodeError), truthy v = true → vs.all truthy = true →
    BadTail g1 vs e → vs.length < fuel →
    sorted_log_loop fuel (some v) g1 none [] = (v :: vs, some (RunError.decode e)) := by
  intro fuel
  induction fuel with
  | zero =>
    intro _ _ _ _ _ _ _ hf
    exact absurd hf (by omega)
  | succ n ih =>
    intro v g1 vs e htv hall ⟨good, bad, rest, hg, hdec, hbad⟩ hf
    have ht : slotTruthy (some v) = true := htv
    cases good with
    | nil =>
      simp only [decodeFile] at hdec
      cases hdec
      have hnl : next_log g1 = Except.error e := by
        subst hg
        simp [next_log, hbad]
      simp [sorted_log_loop, ht, slotTruthy_none, hnl, slotVal]
    | cons l ls =>
      simp only [decodeFile] at hdec
      cases hj : json_loads l with
      | error e2 => rw [hj] at hdec; exact absurd hdec (by simp)
      | ok w =>
        rw [hj] at hdec
        cases hd : decodeFile ls with
        | error e2 => rw [hd] at hdec; exact absurd hdec (by simp)
        | ok ws =>
          rw [hd] at hdec
          cases hdec
          have hallw : truthy w = true ∧ ws.all truthy = true := by simpa using hall
          have hnl : next_log g1 = Except.ok (some w, ls ++ bad :: rest) := by
            subst hg
            simp [next_log, hj]
          have ihw := ih w (ls ++ bad :: rest) ws e hallw.1 hallw.2
            ⟨ls, bad, rest, rfl, hd, hbad⟩ (by simp at hf; omega)
          simp [sorted_log_loop, ht, slotTruthy_none, hnl, ihw, slotVal]

theorem generator_onesided_bad (good : List String) (bad : String) (rest : List String)
    (vs : List Json) (e : JSONDecodeError) (hdec : decodeFile good = Except.ok vs)
    (hall : vs.all truthy = true) (hbad : json_loads bad = Except.error e) :
    sorted_log_generator (good ++ bad :: rest) [] = (vs, some (RunError.decode e)) := by
  cases good with
  | nil =>
    simp only [decodeFile] at hdec
    cases hdec
    simp [sorted_log_generator, next_log, hbad]
  | cons l ls =>
    simp only [decodeFile] at hdec
    cases hj : json_loads l with
    | error e2 => rw [hj] at hdec; exact absurd hdec (by simp)
    | ok w =>
      rw [hj] at hdec
      cases hd : decodeFile ls with
      | error e2 => rw [hd] at hdec; exact absurd hdec (by simp)
      | ok ws =>
        rw [hd] at hdec
        cases hdec
        have hallw : truthy w = true ∧ ws.all truthy = true := by simpa using hall
        have hlen := decodeFile_length ls ws hd
        have hl := loop_onesided_bad (ls.length + (rest.length + 1) + 1 + 1) w
          (ls ++ bad :: rest) ws e hallw.1 hallw.2 ⟨ls, bad, rest, rfl, hd, hbad⟩
          (by omega)
        simp [sorted_log_generator, next_log, hj, hl]

/-- Shared concrete log lines and their decoded records, used to instantiate
the claim theorems on closed inputs. -/
def lineA1 : String := "\x7b\x22timestamp\x22: \x222024-01-01 10:00:00\x22, \x22m\x22: \x22a1\x22\x7d"

def lineA2 : String := "\x7b\x22timestamp\x22: \x222024-01-01 12:00:00\x22, \x22m\x22: \x22a2\x22\x7d"

def lineB1 : String := "\x7b\x22timestamp\x22: \x222024-01-01 10:00:00\x22, \x22m\x22: \x22b1\x22\x7d"

def lineB2 : String := "\x7b\x22timestamp\x22: \x222024-01-01 11:00:00\x22, \x22m\x22: \x22b2\x22\x7d"

def recA1 : Json := Json.obj [("timestamp", Json.str "2024-01-01 10:00:00"), ("m", Json.str "a1")]

def recA2 : Json := Json.obj [("timestamp", Json.str "2024-01-01 12:00:00"), ("m", Json.str "a2")]

def recB1 : Json := Json.obj [("timestamp", Json.str "2024-01-01 10:00:00"), ("m", Json.str "b1")]

def recB2 : Json := Json.obj [("timestamp", Json.str "2024-01-01 11:00:00"), ("m", Json.str "b2")]

/-- C1: for every pair of input files that are each individually
timestamp-ordered and whose every record is an object with a timestamp
string in the fixed format, the merge succeeds and every adjacent pair of
output records has non-decreasing parsed instants. -/
theorem c1_order_property (file1 file2 : List String) (rs1 rs2 : List Json)
    (h1 : decodeFile file1 = Except.ok rs1) (h2 : decodeFile file2 = Except.ok rs2)
    (hv1 : rs1.all validRecord = true) (hv2 : rs2.all validRecord = true)
    (hs1 : sortedByTime rs1 = true) (hs2 : sortedByTime rs2 = true) :
    sortedByTime (sorted_log_generator file1 file2).1 = true ∧
    (sorted_log_generator file1 file2).2 = none := by
  have he := generator_eq_merge file1 file2 rs1 rs2 h1 h2 hv1 hv2
  rw [he]
  exact ⟨merge_records_sorted rs1 rs2 hs1 hs2, rfl⟩

theorem c1_order_property_witness :
    decodeFile [lineA1, lineA2] = Except.ok [recA1, recA2] ∧
    decodeFile [lineB1, lineB2] = Except.ok [recB1, recB2] ∧
    [recA1, recA2].all validRecord = true ∧ [recB1, recB2].all validRecord = true ∧
    sortedByTime [recA1, recA2] = true ∧ sortedByTime [recB1, recB2] = true ∧
    (sortedByTime (sorted_log_generator [lineA1, lineA2] [lineB1, lineB2]).1 = true ∧
      (sorted_log_generator [lineA1, lineA2] [lineB1, lineB2]).2 = none) :=
  ⟨rfl, rfl, rfl, rfl, rfl, rfl,
    c1_order_property [lineA1, lineA2] [lineB1, lineB2] [recA1, recA2] [recB1, recB2]
      rfl rfl rfl rfl rfl rfl⟩

/-- C2: whenever the two peek slots hold records with equal parsed
instants at a merge step, the record of the first-named input file is the
one emitted first. -/
theorem c2_tie_break (fuel : Nat) (r1 : Json) (g1 : List String) (r2 : Json)
    (g2 : List String) (t : Datetime)
    (h1 : truthy r1 = true) (h2 : truthy r2 = true)
    (hg1 : get_log_time r1 = Except.ok t) (hg2 : get_log_time r2 = Except.ok t) :
    (sorted_log_loop (fuel + 1) (some r1) g1 (some r2) g2).1.head? = some r1 := by
  have ht1 : slotTruthy (some r1) = true := h1
  have ht2 : slotTruthy (some r2) = true := h2
  have hle : dtLe t t = true := dtLe_refl t
  cases hnl : next_log g1 with
  | error e => simp [sorted_log_loop, ht1, ht2, slotVal, hg1, hg2, hle, hnl]
  | ok p =>
    obtain ⟨fl1x, g1x⟩ := p
    simp [sorted_log_loop, ht1, ht2, slotVal, hg1, hg2, hle, hnl]

theorem c2_tie_break_witness :
    truthy recA1 = true ∧ truthy recB1 = true ∧
    get_log_time recA1 = Except.ok ⟨2024, 1, 1, 10, 0, 0⟩ ∧
    get_log_time recB1 = Except.ok ⟨2024, 1, 1, 10, 0, 0⟩ ∧
    (sorted_log_loop 3 (some recA1) [] (some recB1) [lineB2]).1.head? = some recA1 :=
  ⟨rfl, rfl, rfl, rfl, c2_tie_break 2 recA1 [] recB1 [lineB2] ⟨2024, 1, 1, 10, 0, 0⟩
    rfl rfl rfl rfl⟩

/-- C3: when every line of both inputs decodes to a well-formed record,
the merge emits exactly the sum of the input counts, the output is a
permutation of the concatenated inputs (every record appears exactly once,
with all its members preserved), and the sink writes exactly one dumped
line per emitted record. -/
theorem c3_conservation (file1 file2 : List String) (rs1 rs2 : List Json)
    (h1 : decodeFile file1 = Except.ok rs1) (h2 : decodeFile file2 = Except.ok rs2)
    (hv1 : rs1.all validRecord = true) (hv2 : rs2.all validRecord = true) :
    (sorted_log_generator file1 file2).1.length = rs1.length + rs2.length ∧
    List.Perm (sorted_log_generator file1 file2).1 (rs1 ++ rs2) ∧
    (sorted_log_generator file1 file2).2 = none ∧
    create_output_file false (sorted_log_generator file1 file2) =
      ⟨true, (sorted_log_generator file1 file2).1.map json_dumps, none⟩ := by
  have he := generator_eq_merge file1 file2 rs1 rs2 h1 h2 hv1 hv2
  rw [he]
  exact ⟨merge_records_length rs1 rs2, merge_records_perm rs1 rs2, rfl, by
    simp [create_output_file]⟩

theorem c3_conservation_witness :
    decodeFile [lineA1, lineA2] = Except.ok [recA1, recA2] ∧
    decodeFile [lineB2] = Except.ok [recB2] ∧
    [recA1, recA2].all validRecord = true ∧ [recB2].all validRecord = true ∧
    ((sorted_log_generator [lineA1, lineA2] [lineB2]).1.length = [recA1, recA2].length + [recB2].length ∧
      List.Perm (sorted_log_generator [lineA1, lineA2] [lineB2]).1 ([recA1, recA2] ++ [recB2]) ∧
      (sorted_log_generator [lineA1, lineA2] [lineB2]).2 = none ∧
      create_output_file false (sorted_log_generator [lineA1, lineA2] [lineB2]) =
        ⟨true, (sorted_log_generator [lineA1, lineA2] [lineB2]).1.map json_dumps, none⟩) :=
  ⟨rfl, rfl, rfl, rfl,
    c3_conservation [lineA1, lineA2] [lineB2] [recA1, recA2] [recB2] rfl rfl rfl rfl⟩

/-- C4: the empty file is a left and a right identity of the merge: merging
an empty first input with a well-formed second input yields exactly the
second input record-for-record, and symmetrically. -/
theorem c4_empty_identity (src : List String) (rs : List Json)
    (h : decodeFile src = Except.ok rs) (hv : rs.all validRecord = true) :
    sorted_log_generator [] src = (rs, none) ∧ sorted_log_generator src [] = (rs, none) := by
  have h1 := generator_eq_merge [] src [] rs rfl h rfl hv
  have h2 := generator_eq_merge src [] rs [] h rfl hv rfl
  rw [merge_records_nil_left] at h1
  rw [merge_records_nil_right] at h2
  exact ⟨h1, h2⟩

theorem c4_empty_identity_witness :
    decodeFile [lineB1, lineB2] = Except.ok [recB1, recB2] ∧
    [recB1, recB2].all validRecord = true ∧
    (sorted_log_generator [] [lineB1, lineB2] = ([recB1, recB2], none) ∧
      sorted_log_generator [lineB1, lineB2] [] = ([recB1, recB2], none)) :=
  ⟨rfl, rfl, c4_empty_identity [lineB1, lineB2] [recB1, recB2] rfl rfl⟩

/-- C5: when the output directory already exists, create_output_file fails
with the target-exists error before creating anything and before consuming
any record of the merged stream (the outcome does not depend on the stream
at all), and a whole run does the same. -/
theorem c5_no_clobber : ∀ (merged_log : List Json × Option RunError) (file1 file2 : List String),
    create_output_file true merged_log = ⟨false, [], some MainError.target_exists⟩ ∧
    main_run true true true file1 file2 = ⟨false, [], some MainError.target_exists⟩ := by
  intro m file1 file2
  exact ⟨by simp [create_output_file], by simp [main_run, create_output_file]⟩

/-- C6: a run that fails mid-merge aborts at the failing record: with a
reader failure the output file holds exactly the encoded records emitted
before the bad line and the created directory and written prefix are left
in place, and with an extractor failure the loop aborts at once, emitting
nothing further. -/
theorem c6_failure_prefix :
    (∀ (good : List String) (bad : String) (rest : List String) (vs : List Json)
      (e : JSONDecodeError), decodeFile good = Except.ok vs → vs.all truthy = true →
      json_loads bad = Except.error e →
      create_output_file false (sorted_log_generator (good ++ bad :: rest) []) =
        ⟨true, vs.map json_dumps, some (MainError.run (RunError.decode e))⟩) ∧
    (∀ (fuel : Nat) (r1 : Json) (g1 : List String) (r2 : Json) (g2 : List String)
      (err : RunError), truthy r1 = true → truthy r2 = true →
      get_log_time r1 = Except.error err →
      sorted_log_loop (fuel + 1) (some r1) g1 (some r2) g2 = ([], some err)) := by
  constructor
  · intro good bad rest vs e hdec hall hbad
    rw [generator_onesided_bad good bad rest vs e hdec hall hbad]
    simp [create_output_file]
  · intro fuel r1 g1 r2 g2 err h1 h2 hg
    have ht1 : slotTruthy (some r1) = true := h1
    have ht2 : slotTruthy (some r2) = true := h2
    simp [sorted_log_loop, ht1, ht2, slotVal, hg]

theorem c6_failure_prefix_witness :
    (decodeFile [lineA1] = Except.ok [recA1] ∧ [recA1].all truthy = true ∧
      json_loads "\x7b" = Except.error
        ⟨"Expecting property name enclosed in double quotes", "\x7b", 1⟩ ∧
      create_output_file false (sorted_log_generator ([lineA1] ++ "\x7b" :: []) []) =
        ⟨true, [recA1].map json_dumps, some (MainError.run (RunError.decode
          ⟨"Expecting property name enclosed in double quotes", "\x7b", 1⟩))⟩) ∧
    (truthy (Json.obj [("m", Json.str "nots")]) = true ∧ truthy recB1 = true ∧
      get_log_time (Json.obj [("m", Json.str "nots")]) = Except.error RunError.typeError ∧
      sorted_log_loop 1 (some (Json.obj [("m", Json.str "nots")])) [] (some recB1) [] =
        ([], some RunError.typeError)) :=
  ⟨⟨rfl, rfl, rfl,
    c6_failure_prefix.1 [lineA1] "\x7b" [] [recA1]
      ⟨"Expecting property name enclosed in double quotes", "\x7b", 1⟩ rfl rfl rfl⟩,
   ⟨rfl, rfl, rfl,
    c6_failure_prefix.2 0 (Json.obj [("m", Json.str "nots")]) [] recB1 []
      RunError.typeError rfl rfl rfl⟩⟩

/-- C7 counterexample: the decode error propagated out of the reader is the
very same value whether the undecodable line sits in the first file at line
one or in the second file at line two, so the error identifies neither the
source file nor the line number within it; it carries only the line text
and a position inside that line. -/
theorem c7_counterexample :
    (sorted_log_generator ["\x7b"] [lineB1]).2 =
      (sorted_log_generator [lineA1] [lineB1, "\x7b"]).2 ∧
    (sorted_log_generator ["\x7b"] [lineB1]).2 =
      some (RunError.decode
        ⟨"Expecting property name enclosed in double quotes", "\x7b", 1⟩) := by
  exact ⟨rfl, rfl⟩

/-- C7 amended: a line that is not valid JSON makes the reader propagate
the json.loads decode error unchanged, aborting the merge with no record
emitted from that point and never skipping the line; the error carries the
failing line and a position within it, but no file identity and no
file-relative line number. -/
theorem c7_decode_error_propagation (bad : String) (e : JSONDecodeError)
    (rest file2 : List String) (h : json_loads bad = Except.error e) :
    sorted_log_generator (bad :: rest) file2 = ([], some (RunError.decode e)) := by
  simp [sorted_log_generator, next_log, h]

theorem c7_decode_error_propagation_witness :
    json_loads "\x7b" = Except.error
      ⟨"Expecting property name enclosed in double quotes", "\x7b", 1⟩ ∧
    sorted_log_generator ["\x7b"] [lineB1] = ([], some (RunError.decode
      ⟨"Expecting property name enclosed in double quotes", "\x7b", 1⟩)) :=
  ⟨rfl, c7_decode_error_propagation "\x7b"
    ⟨"Expecting property name enclosed in double quotes", "\x7b", 1⟩ [] [lineB1] rfl⟩

/-- C8 counterexample: a record whose timestamp member is present but is
not a string (here null, as dict.get returns None for it) fails with the
same TypeError as a record with no timestamp member at all, not with the
distinct format error the claim requires for every present-but-unparsable
value. -/
theorem c8_counterexample :
    get_log_time (Json.obj [("timestamp", Json.null)]) = Except.error RunError.typeError ∧
    get_log_time (Json.obj [("event", Json.str "x")]) = Except.error RunError.typeError ∧
    RunError.typeError ≠ RunError.valueError :=
  ⟨rfl, rfl, by decide⟩

/-- C8 amended: a record lacking the timestamp key fails with TypeError
(the missing-field failure, strptime being given None); a record whose
timestamp is a string that does not match the fixed format fails with the
distinct ValueError (the format failure); a record whose timestamp is
present but not a string fails with the same TypeError as a missing key.
All are modelled as pure outcomes of the extractor. -/
theorem c8_extractor_errors :
    (∀ ms, lookupKvs ms "timestamp" = none →
      get_log_time (Json.obj ms) = Except.error RunError.typeError) ∧
    (∀ ms s, lookupKvs ms "timestamp" = some (Json.str s) → strptime s = none →
      get_log_time (Json.obj ms) = Except.error RunError.valueError) ∧
    (∀ ms v, lookupKvs ms "timestamp" = some v → (∀ s, v ≠ Json.str s) →
      get_log_time (Json.obj ms) = Except.error RunError.typeError) := by
  refine ⟨?_, ?_, ?_⟩
  · intro ms h
    simp [get_log_time, h]
  · intro ms s h hs
    simp [get_log_time, h, hs]
  · intro ms v h hv
    cases v with
    | str s => exact absurd rfl (hv s)
    | null => simp [get_log_time, h]
    | bool b => simp [get_log_time, h]
    | num n => simp [get_log_time, h]
    | arr es => simp [get_log_time, h]
    | obj ms2 => simp [get_log_time, h]

theorem c8_extractor_errors_witness :
    (lookupKvs [("event", Json.str "x")] "timestamp" = none ∧
      get_log_time (Json.obj [("event", Json.str "x")]) = Except.error RunError.typeError) ∧
    (lookupKvs [("timestamp", Json.str "yesterday")] "timestamp" =
        some (Json.str "yesterday") ∧ strptime "yesterday" = none ∧
      get_log_time (Json.obj [("timestamp", Json.str "yesterday")]) =
        Except.error RunError.valueError) ∧
    (lookupKvs [("timestamp", Json.num 5)] "timestamp" = some (Json.num 5) ∧
      get_log_time (Json.obj [("timestamp", Json.num 5)]) =
        Except.error RunError.typeError) :=
  ⟨⟨rfl, c8_extractor_errors.1 [("event", Json.str "x")] rfl⟩,
   ⟨rfl, rfl, c8_extractor_errors.2.1 [("timestamp", Json.str "yesterday")] "yesterday" rfl rfl⟩,
   ⟨rfl, c8_extractor_errors.2.2 [("timestamp", Json.num 5)] (Json.num 5) rfl
     (fun _ h => Json.noConfusion h)⟩⟩

/-- C9: when one or both input paths are not existing files, the run fails
with the input-not-found error (the raise site whose message names missing
log files) before the merge is built and before any output directory or
file is created, whatever the output directory state and the file
contents. -/
theorem c9_input_check_first (log1_is_file log2_is_file output_dir_exists : Bool)
    (file1 file2 : List String) (h : (log1_is_file && log2_is_file) = false) :
    main_run log1_is_file log2_is_file output_dir_exists file1 file2 =
      ⟨false, [], some MainError.input_not_found⟩ := by
  simp [main_run, h]

theorem c9_input_check_first_witness :
    ((false && true) = false) ∧
    main_run false true true [lineA1] [lineB1] =
      ⟨false, [], some MainError.input_not_found⟩ :=
  ⟨rfl, c9_input_check_first false true true [lineA1] [lineB1] rfl⟩

/-- C10: exhaustion is detected by Python truthiness of the peeked record,
so a slot holding the decoded empty object behaves exactly like an
exhausted source: the loop never reads that slot or its reader again (on
either side), and a file whose first line is an empty object merges
exactly like the empty file, its empty record and all later records never
emitted and no error raised. -/
theorem c10_empty_object_exhausts :
    (∀ (fuel : Nat) (g1 g1x : List String) (fl2 : Option Json) (g2 : List String),
      sorted_log_loop fuel (some (Json.obj [])) g1 fl2 g2 =
        sorted_log_loop fuel none g1x fl2 g2) ∧
    (∀ (fuel : Nat) (fl1 : Option Json) (g1 : List String) (g2 g2x : List String),
      sorted_log_loop fuel fl1 g1 (some (Json.obj [])) g2 =
        sorted_log_loop fuel fl1 g1 none g2x) ∧
    (∀ (rest file2 : List String),
      sorted_log_generator ("\x7b\x7d" :: rest) file2 = sorted_log_generator [] file2) := by
  refine ⟨?_, ?_, ?_⟩
  · intro fuel g1 g1x fl2 g2
    exact loop_left_falsy fuel (some (Json.obj [])) g1 g1x fl2 g2 rfl
  · intro fuel fl1 g1 g2 g2x
    exact loop_right_falsy fuel fl1 g1 (some (Json.obj [])) g2 g2x rfl
  · intro rest file2
    have hn1 : next_log ("\x7b\x7d" :: rest) = Except.ok (some (Json.obj []), rest) := rfl
    have hn0 : next_log ([] : List String) = Except.ok (none, []) := rfl
    cases hn2 : next_log file2 with
    | error e => simp only [sorted_log_generator, hn1, hn0, hn2]
    | ok p =>
      obtain ⟨fl2, g2⟩ := p
      have hm := next_log_measure file2 fl2 g2 hn2
      have hc0 : slotCount (none : Option Json) = 0 := rfl
      have hb1 : loopMeasure none [] fl2 g2 <
          ("\x7b\x7d" :: rest).length + file2.length + 1 := by
        simp only [loopMeasure, List.length_nil, List.length_cons]
        omega
      have hb2 : loopMeasure none [] fl2 g2 < ([] : List String).length + file2.length + 1 := by
        simp only [loopMeasure, List.length_nil]
        omega
      simp only [sorted_log_generator, hn1, hn0, hn2]
      rw [loop_left_falsy (("\x7b\x7d" :: rest).length + file2.length + 1)
        (some (Json.obj [])) rest [] fl2 g2 rfl]
      exact loop_fuel_irrel (("\x7b\x7d" :: rest).length + file2.length + 1)
        (([] : List String).length + file2.length + 1) none [] fl2 g2 hb1 hb2
